import Mathlib

/-!
Shallow embedding, in Lean 4, of the nebula-console2.0 client (package main).
The embedding follows the later revision of main.go (the one built around the
polymorphic Cli interface, whose clientCmd trims and lowercases its input,
whose val2String returns an ellipsis at depth 0 and quotes map keys, and whose
loop returns an error that main maps to the process exit code); the other
revision of main.go in the repository is an earlier snapshot of the same file.

Modelling conventions:
  - Go strings are modelled by Lean String (byte length and rune length agree on
    the ASCII data handled by the claims; both sides of every statement use the
    same length function, so widths are compared consistently).
  - Go uint depth counters are Nat; int64 is Int (no claim exercises wraparound).
  - Go float64 formatting (strconv.FormatFloat g -1 64) is modelled by Lean
    Float toString; no claim depends on the float digits.
  - Go map iteration (unspecified order) is modelled by a key/value list,
    rendered in list order, which is one admissible iteration order.
  - Printing is modelled by returning the printed lines / strings instead of
    writing to stdout; the REPL loop is modelled as a function from the list of
    read results delivered by the input source to the loop outcome (reported
    error, dispatched queries, prompt calls, final session space).
-/

namespace NebulaConsole

/-- Kinds of the thrift NullType enum carried by a null Value
(common.NullType in the source). -/
inductive NullType
  | NULL
  | NaN
  | BAD_DATA
  | BAD_TYPE
deriving DecidableEq

/-- Date value, fields as read by GetYear/GetMonth/GetDay. -/
structure NDate where
  year : Int
  month : Int
  day : Int

/-- DateTime value, fields as read by GetYear .. GetMicrosec. -/
structure NDateTime where
  year : Int
  month : Int
  day : Int
  hour : Int
  minute : Int
  sec : Int
  microsec : Int

/-- Vertex value; val2String only reads its vid (GetVid). -/
structure Vertex where
  vid : String

/-- Edge value, fields as read by GetSrc/GetName/GetDst/GetRanking. -/
structure Edge where
  src : String
  dst : String
  name : String
  ranking : Int

/-- One step of a Path, fields as read by GetName/GetDst/GetRanking. -/
structure Step where
  name : String
  dst : Vertex
  ranking : Int

/-- Path value: source vertex plus steps (GetSrc, GetSteps). -/
structure Path where
  src : Vertex
  steps : List Step

/-- The tagged union common.Value: exactly one variant is set, mirrored by one
constructor per IsSetXVal branch of val2String.  The List/Map/Set payloads carry
their element lists directly (GetValues / GetKvs). -/
inductive Value
  | nVal (n : NullType)
  | bVal (b : Bool)
  | iVal (i : Int)
  | fVal (f : Float)
  | sVal (s : String)
  | dVal (d : NDate)
  | tVal (t : NDateTime)
  | vVal (v : Vertex)
  | eVal (e : Edge)
  | pVal (p : Path)
  | lVal (values : List Value)
  | mVal (kvs : List (String × Value))
  | uVal (values : List Value)

/-- Embedding of func val2String(value, depth).  The Go recursion decrements
depth on every nested call, so the Lean recursion is structural on depth; each
branch reproduces the corresponding IsSetXVal branch of the source.  The string
folds mirror the Go str += accumulation (Lean if-then-else for
strconv.FormatBool, Int toString for strconv.FormatInt base 10, Float toString
for strconv.FormatFloat). -/
def val2String : Value → Nat → String
  | _, 0 => "..."  -- Avoid too deep recursive
  | value, depth + 1 =>
    match value with
    | .nVal n =>  -- null
      match n with
      | .NULL => "NULL"
      | .NaN => "NaN"
      | .BAD_DATA => "BAD_DATA"
      | .BAD_TYPE => "BAD_TYPE"
    | .bVal b => if b then "true" else "false"  -- bool
    | .iVal i => toString i  -- int64
    | .fVal f => toString f  -- float64
    | .sVal s => "\"" ++ s ++ "\""  -- string
    | .dVal date =>  -- yyyy-mm-dd
      toString date.year ++ "-" ++ toString date.month ++ "-" ++ toString date.day
    | .tVal dt =>  -- yyyy-mm-dd HH:MM:SS:MS
      toString dt.year ++ "-" ++ toString dt.month ++ "-" ++ toString dt.day ++ " " ++
        toString dt.hour ++ ":" ++ toString dt.minute ++ ":" ++ toString dt.sec ++ ":" ++
        toString dt.microsec
    | .vVal v => v.vid  -- Vertex: VId only
    | .eVal e =>  -- Edge: src-[TypeName]->dst@ranking
      e.src ++ "-[" ++ e.name ++ "]->" ++ e.dst ++ "@" ++ toString e.ranking
    | .pVal p =>  -- Path: src-[TypeName]->dst@ranking-[TypeName]->dst@ranking ...
      p.steps.foldl
        (fun str step =>
          str ++ ("-[" ++ step.name ++ "]->" ++ step.dst.vid ++ "@" ++ toString step.ranking))
        p.src.vid
    | .lVal l =>  -- List
      (l.foldl (fun str v => str ++ val2String v depth ++ ",") "[") ++ "]"
    | .mVal m =>  -- Map
      (m.foldl
        (fun str kv => str ++ "\"" ++ kv.1 ++ "\"" ++ ":" ++ val2String kv.2 depth ++ ",")
        "\x7b") ++ "\x7d"
    | .uVal s =>  -- Set
      (s.foldl (fun str v => str ++ val2String v depth ++ ",") "\x7b") ++ "\x7d"

/-- Model of strings.TrimSpace: drop whitespace from both ends (the claims only
exercise ASCII whitespace, where Go unicode.IsSpace and Char.isWhitespace
agree). -/
def trimSpace (s : String) : String :=
  ⟨((s.data.dropWhile Char.isWhitespace).reverse.dropWhile Char.isWhitespace).reverse⟩

/-- Model of strings.ToLower, characterwise (the claims only exercise ASCII,
where Go and Char.toLower agree). -/
def toLowerStr (s : String) : String :=
  ⟨s.data.map Char.toLower⟩

/-- Embedding of func clientCmd(query): does the line ask the client itself to
exit. -/
def clientCmd (query : String) : Bool :=
  let plain := toLowerStr (trimSpace query)
  plain == "exit" || plain == "quit"

/-- Embedding of func max(v1, v2) from the source (Go uint max). -/
def maxU (v1 : Nat) (v2 : Nat) : Nat :=
  if v1 > v2 then v1 else v2

/-- Embedding of func sum(a) from the source (Go uint sum by range loop). -/
def sumU (a : List Nat) : Nat :=
  a.foldl (fun s v => s + v) 0

/-- Each column align indent to boundary (const align = 2). -/
def align : Nat := 2

/-- One result table: column names plus rows of values (ngdb.DataSet with
GetColumnNames and GetRows, each row read through GetColumns). -/
structure DataSet where
  column_names : List String
  rows : List (List Value)

/-- Inner j-loop of printTable over one row of already-rendered cells: for each
column j the width becomes max(len(cell), spec[j]).  Go would panic with an
index out of range on a row longer than the spec; the model truncates there,
and every claim carries the well-formedness hypothesis that rules the case
out. -/
def updateSpec : List Nat → List String → List Nat
  | spec, [] => spec
  | [], _ :: _ => []
  | w :: ws, c :: cs => maxU c.length w :: updateSpec ws cs

/-- The tableRows matrix of printTable: every cell rendered by
val2String(col, 256). -/
def renderedRows (t : DataSet) : List (List String) :=
  t.rows.map (fun r => r.map (fun c => val2String c 256))

/-- The tableSpec of printTable: widths start from the header lengths and are
then folded over all rendered rows. -/
def tableSpecOf (t : DataSet) : List Nat :=
  (renderedRows t).foldl updateSpec (t.column_names.map String.length)

/-- totalLineLength of printTable: value limit + two indent + the column
delimiters themselves. -/
def totalLineLength (t : DataSet) : Nat :=
  sumU (tableSpecOf t) + t.column_names.length * align * 2 + t.column_names.length + 1

/-- Model of strings.Repeat(s, n). -/
def strRepeat (s : String) : Nat → String
  | 0 => ""
  | n + 1 => s ++ strRepeat s n

/-- The headerLine of printTable (repeated headerChar). -/
def headerLineOf (t : DataSet) : String :=
  strRepeat "=" (totalLineLength t)

/-- The rowLine of printTable (repeated rowChar). -/
def rowLineOf (t : DataSet) : String :=
  strRepeat "-" (totalLineLength t)

/-- One cell as printed by printRow: the delimiter, the indent, the content,
and trailing padding up to spec width plus indent. -/
def printCell (col : String) (w : Nat) : String :=
  let colString := "|" ++ strRepeat " " align ++ col
  if col.length < w + align then
    colString ++ strRepeat " " (w + align - col.length)
  else
    colString

/-- Embedding of func printRow(row, colSpec) as the full printed line: the
cells in order followed by the closing delimiter (Go indexes colSpec[i] and
would panic on a row longer than the spec; the model stops there, unreachable
under the well-formedness hypotheses of the claims). -/
def printRowStr : List String → List Nat → String
  | [], _ => "|"
  | _ :: _, [] => "|"
  | c :: cs, w :: ws => printCell c w ++ printRowStr cs ws

/-- Embedding of func printTable(table) as the list of printed lines: header
separator, header row, header separator, then each data row followed by a row
separator, then the summary line. -/
def printTableLines (t : DataSet) : List String :=
  [headerLineOf t, printRowStr t.column_names (tableSpecOf t), headerLineOf t] ++
    ((renderedRows t).flatMap (fun r => [printRowStr r (tableSpecOf t), rowLineOf t])) ++
    ["Got " ++ toString t.rows.length ++ " rows, " ++ toString t.column_names.length ++
      " columns."]

/-- graph.ErrorCode_SUCCEEDED (the zero value of the thrift ErrorCode enum). -/
def ErrorCode_SUCCEEDED : Int := 0

/-- The fields of graph.ExecutionResponse that the console reads: GetErrorCode,
GetLatencyInUs, SpaceName, GetData (a nil slice is the empty list — ranging
over nil is a no-op either way). -/
structure ExecutionResponse where
  error_code : Int
  latency_in_us : Int
  space_name : String
  data : List DataSet

/-- Embedding of func printResp(resp, duration) as the list of printed lines:
on a non-SUCCEEDED error code only the error annotation is printed and the
function returns; otherwise every table of the response is printed and then the
timing line (duration is in nanoseconds and integer-divided by 1000). -/
def printRespLines (resp : ExecutionResponse) (durationNs : Int) : List String :=
  if resp.error_code ≠ ErrorCode_SUCCEEDED then
    ["[ERROR (" ++ toString resp.error_code ++ ")]"]
  else
    (resp.data.flatMap printTableLines) ++
      ["time spent " ++ toString resp.latency_in_us ++ "/" ++ toString (durationNs / 1000) ++
        " us"]

/-- const NebulaLabel. -/
def NebulaLabel : String := "Nebula-Console"

/-- Embedding of func prompt(space, user, isErr, isTTY) as the printed string:
a newline, the bold escape when a TTY, additionally the red escape when the
last call errored, the literal prompt text, and the reset escape when a TTY
(ttyColorPrefix is ESC plus an opening bracket, ttyColorSuffix the letter m). -/
def promptOutput (space : String) (user : String) (isErr : Bool) (isTTY : Bool) : String :=
  "\n" ++
    (if isTTY then "\x1b[1m" else "") ++
    (if isTTY && isErr then "\x1b[31m" else "") ++
    "(" ++ user ++ "@" ++ NebulaLabel ++ ") [(" ++ space ++ ")]> " ++
    (if isTTY then "\x1b[0m" else "")

/-- The error values a ReadLine can fail with: io.EOF, readline.ErrInterrupt,
or any other read error. -/
inductive ReadErr
  | eof
  | interrupt
  | other (msg : String)
deriving DecidableEq

/-- One result delivered by c.ReadLine(): either a line or a read error. -/
inductive ReadEvent
  | line (s : String)
  | readErr (e : ReadErr)

/-- Outcome of func loop(client, c): the error returned to main (none on a
graceful stop), the queries dispatched to client.Execute in order, the
(space, isErr) arguments of every c.Prompt call in order, and the final
currentSpace. -/
structure LoopOutcome where
  err : Option ReadErr
  queries : List String
  prompts : List (String × Bool)
  finalSpace : String

/-- Body of func loop after the initial prompt, one iteration per ReadLine
result.  An exhausted input list behaves as io.EOF (what a buffered reader
returns at end of input), which the loop turns into a nil error.  A read error
terminates the loop: nil for io.EOF or readline.ErrInterrupt, the error itself
otherwise.  An empty line re-prompts with the error flag cleared.  A client
command returns nil.  Any other line is dispatched through the execution
collaborator exec (a total function: a transport error would be log.Fatalf,
which never returns), currentSpace is overwritten from the response SpaceName
and the next prompt carries whether the response error code differs from
SUCCEEDED.  The wall-clock timestamp printing of the loop is not part of the
outcome. -/
def loopGo (exec : String → ExecutionResponse) :
    List ReadEvent → String → List (String × Bool) → List String → LoopOutcome
  | [], currentSpace, prompts, queries =>
    ⟨none, queries, prompts, currentSpace⟩
  | .readErr e :: _, currentSpace, prompts, queries =>
    if e = .eof ∨ e = .interrupt then
      ⟨none, queries, prompts, currentSpace⟩
    else
      ⟨some e, queries, prompts, currentSpace⟩
  | .line l :: rest, currentSpace, prompts, queries =>
    if l.length = 0 then
      loopGo exec rest currentSpace (prompts ++ [(currentSpace, false)]) queries
    else if clientCmd l then
      ⟨none, queries, prompts, currentSpace⟩
    else
      let resp := exec l
      loopGo exec rest resp.space_name
        (prompts ++ [(resp.space_name, resp.error_code != ErrorCode_SUCCEEDED)])
        (queries ++ [l])

/-- Embedding of func loop: the initial c.Prompt("", false), then the iteration
over the read results, starting from an empty currentSpace. -/
def loopRun (exec : String → ExecutionResponse) (events : List ReadEvent) : LoopOutcome :=
  loopGo exec events "" [("", false)] []

/-- Exit-code mapping of func main: os.Exit(1) when loop returned a non-nil
error, normal termination (exit code 0) otherwise. -/
def exitCode (r : LoopOutcome) : Nat :=
  if r.err.isSome then 1 else 0

/-- A concrete execution collaborator for closed statements: every query
succeeds with an empty response. -/
def execStub : String → ExecutionResponse :=
  fun _ => ⟨0, 0, "", []⟩

/-- A concrete execution collaborator for closed statements: every query is
answered with a server-reported error (code 7) that nevertheless reports the
namespace myspace. -/
def execMySpace : String → ExecutionResponse :=
  fun _ => ⟨7, 0, "myspace", []⟩

/-- Column width as the specification words it (claim C5): the maximum of the
header-name length and of the lengths of that column's cells rendered at depth
256, to be compared with the width list the code computes (tableSpecOf). -/
def colWidthSpec (t : DataSet) (j : Nat) : Nat :=
  Nat.max (t.column_names.getD j "").length
    (((renderedRows t).map (fun r => (r.getD j "").length)).foldr Nat.max 0)

/-! Helper lemmas shared by the claim theorems. -/

/-- The Go max on uint agrees with Nat.max. -/
theorem maxU_eq_max (a b : Nat) : maxU a b = Nat.max a b := by
  unfold maxU
  show _ = max a b
  rcases Nat.lt_or_ge b a with h | h
  · rw [if_pos h, max_eq_left h.le]
  · rw [if_neg (Nat.not_lt.mpr h), max_eq_right h]

/-- A left fold that appends one rendered piece per element equals the joined
map of the pieces after the initial string. -/
theorem foldl_eq_append_join {α : Type} (f : String → α → String) (g : α → String)
    (hf : ∀ acc x, f acc x = acc ++ g x) (l : List α) (init : String) :
    l.foldl f init = init ++ String.join (l.map g) := by
  induction l generalizing init with
  | nil =>
    apply String.ext
    simp
  | cons a t ih =>
    simp only [List.foldl_cons, List.map_cons, hf]
    rw [ih]
    apply String.ext
    simp

/-- A string never equals the empty string exactly when its length is
positive. -/
theorem strLength_zero_iff (s : String) : s.length = 0 ↔ s = "" := by
  constructor
  · intro h
    cases s with
    | mk l => exact congrArg String.mk (List.length_eq_zero.mp h)
  · rintro rfl
    rfl

/-- clientCmd holds exactly on lines that trim and lowercase to exit or
quit. -/
theorem clientCmd_iff (q : String) :
    clientCmd q = true ↔
      (toLowerStr (trimSpace q) = "exit" ∨ toLowerStr (trimSpace q) = "quit") := by
  simp [clientCmd]

/-- Length of a repeated string. -/
theorem strRepeat_length (s : String) (n : Nat) : (strRepeat s n).length = n * s.length := by
  induction n with
  | zero => simp [strRepeat]
  | succ k ih => simp [strRepeat, String.length_append, ih, Nat.succ_mul, Nat.add_comm]

/-- getD through a map by String.length. -/
theorem getD_map_length (names : List String) (j : Nat) :
    (names.map String.length).getD j 0 = (names.getD j "").length := by
  induction names generalizing j with
  | nil => simp
  | cons a t ih =>
    cases j with
    | zero => simp
    | succ k =>
      simp only [List.map_cons, List.getD_cons_succ]
      exact ih k

/-- The Go sum, folded from an arbitrary accumulator. -/
theorem sumU_foldl_init (t : List Nat) (init : Nat) :
    t.foldl (fun s v => s + v) init = init + sumU t := by
  induction t generalizing init with
  | nil => simp [sumU]
  | cons b t ih =>
    show t.foldl (fun s v => s + v) (init + b) = init + sumU (b :: t)
    rw [ih]
    show init + b + sumU t = init + t.foldl (fun s v => s + v) (0 + b)
    rw [ih]
    omega

/-- The Go sum as a Finset.range sum of getD entries. -/
theorem sumU_eq_sum_getD (l : List Nat) :
    sumU l = ∑ j in Finset.range l.length, l.getD j 0 := by
  induction l with
  | nil => simp [sumU]
  | cons a t ih =>
    have hcons : sumU (a :: t) = a + sumU t := by
      show t.foldl (fun s v => s + v) (0 + a) = a + sumU t
      rw [sumU_foldl_init]
      omega
    rw [hcons, ih, List.length_cons, Finset.sum_range_succ']
    simp [Nat.add_comm]

/-- updateSpec keeps the width list length. -/
theorem updateSpec_length (spec : List Nat) (row : List String) :
    (updateSpec spec row).length = spec.length := by
  induction spec generalizing row with
  | nil => cases row <;> simp [updateSpec]
  | cons w ws ih =>
    cases row with
    | nil => simp [updateSpec]
    | cons c cs => simp [updateSpec, ih]

/-- Pointwise description of updateSpec on a row of matching arity. -/
theorem updateSpec_getD (spec : List Nat) (row : List String)
    (h : row.length = spec.length) (j : Nat) :
    (updateSpec spec row).getD j 0 = Nat.max (row.getD j "").length (spec.getD j 0) := by
  induction spec generalizing row j with
  | nil =>
    have : row = [] := List.length_eq_zero.mp (by simpa using h)
    subst this
    simp [updateSpec]
  | cons w ws ih =>
    cases row with
    | nil => exact absurd h (by simp)
    | cons c cs =>
      cases j with
      | zero => simp [updateSpec, maxU_eq_max]
      | succ k =>
        simp only [updateSpec, List.getD_cons_succ]
        exact ih cs (by simpa using h) k

/-- Length through the full width fold. -/
theorem foldl_updateSpec_length (rows : List (List String)) (init : List Nat) :
    (rows.foldl updateSpec init).length = init.length := by
  induction rows generalizing init with
  | nil => rfl
  | cons r rows ih =>
    simp only [List.foldl_cons]
    rw [ih, updateSpec_length]

/-- Pointwise description of the full width fold of printTable: each final
width is the max of the initial width and of all rendered cell lengths of that
column. -/
theorem foldl_updateSpec_getD (rows : List (List String)) (init : List Nat)
    (h : ∀ r ∈ rows, r.length = init.length) (j : Nat) :
    (rows.foldl updateSpec init).getD j 0 =
      Nat.max (init.getD j 0) ((rows.map (fun r => (r.getD j "").length)).foldr Nat.max 0) := by
  induction rows generalizing init with
  | nil => simp
  | cons r rows ih =>
    simp only [List.foldl_cons, List.map_cons, List.foldr_cons]
    rw [ih (updateSpec init r)
        (fun x hx => (h x (List.mem_cons_of_mem r hx)).trans (updateSpec_length init r).symm),
      updateSpec_getD init r (h r (List.mem_cons_self r rows)) j]
    show max (max _ _) _ = max _ (max _ _)
    rw [max_assoc, max_left_comm]

/-! Claim theorems. -/

/-- C2: for every ResultValue, rendering with an exhausted depth budget (0)
returns the ellipsis placeholder instead of recursing, regardless of the
variant. -/
theorem val2String_depth_zero (v : Value) : val2String v 0 = "..." := rfl

/-- C3: a Map value rendered with depth budget greater than 1 is an opening
brace, then per entry the key in double quotes, a colon, the value rendered at
depth minus one, and a comma, then a closing brace (entries in the modelled
iteration order). -/
theorem val2String_map_entries (kvs : List (String × Value)) (d : Nat) (h : 1 < d) :
    val2String (.mVal kvs) d =
      "\x7b" ++
        String.join
          (kvs.map (fun kv => "\"" ++ kv.1 ++ "\"" ++ ":" ++ val2String kv.2 (d - 1) ++ ",")) ++
        "\x7d" := by
  obtain ⟨e, rfl⟩ : ∃ e, d = e + 1 := ⟨d - 1, by omega⟩
  simp only [Nat.add_sub_cancel]
  simp only [val2String]
  rw [foldl_eq_append_join _
      (fun kv : String × Value => "\"" ++ kv.1 ++ "\"" ++ ":" ++ val2String kv.2 e ++ ",")
      (fun acc x => by apply String.ext; simp) kvs "\x7b"]

/-- C3 witness: a concrete map rendered at depth 2. -/
theorem val2String_map_entries_witness :
    (1 : Nat) < 2 ∧
      val2String (.mVal [("k1", .iVal 1)]) 2 =
        "\x7b" ++
          String.join
            ([(("k1" : String), Value.iVal 1)].map
              (fun kv => "\"" ++ kv.1 ++ "\"" ++ ":" ++ val2String kv.2 (2 - 1) ++ ",")) ++
          "\x7d" :=
  ⟨by decide, val2String_map_entries [("k1", .iVal 1)] 2 (by decide)⟩

/-- C4: a non-empty List value rendered with depth budget greater than 1 is an
opening bracket, then each element rendered at depth minus one followed by a
comma (in list order), then the closing bracket; in particular a trailing comma
directly precedes the closing bracket. -/
theorem val2String_list_entries (l : List Value) (d : Nat) (h1 : 1 < d) (h2 : l ≠ []) :
    val2String (.lVal l) d =
        "[" ++ String.join (l.map (fun v => val2String v (d - 1) ++ ",")) ++ "]" ∧
      ∃ s, val2String (.lVal l) d = s ++ "," ++ "]" := by
  obtain ⟨e, rfl⟩ : ∃ e, d = e + 1 := ⟨d - 1, by omega⟩
  simp only [Nat.add_sub_cancel]
  have hmain :
      val2String (.lVal l) (e + 1) =
        "[" ++ String.join (l.map (fun v => val2String v e ++ ",")) ++ "]" := by
    simp only [val2String]
    rw [foldl_eq_append_join _ (fun v : Value => val2String v e ++ ",")
        (fun acc x => by apply String.ext; simp) l "["]
  refine ⟨hmain, ⟨"[" ++ String.join (l.dropLast.map (fun v => val2String v e ++ ",")) ++
    val2String (l.getLast h2) e, ?_⟩⟩
  rw [hmain]
  conv_lhs => rw [← List.dropLast_append_getLast h2]
  apply String.ext
  simp

/-- C4 witness: the list of 1, 2, 3 rendered at depth 256. -/
theorem val2String_list_entries_witness :
    ((1 : Nat) < 256 ∧ ([Value.iVal 1, .iVal 2, .iVal 3] ≠ [])) ∧
      (val2String (.lVal [.iVal 1, .iVal 2, .iVal 3]) 256 =
          "[" ++
            String.join
              ([Value.iVal 1, .iVal 2, .iVal 3].map (fun v => val2String v (256 - 1) ++ ",")) ++
            "]" ∧
        ∃ s, val2String (.lVal [.iVal 1, .iVal 2, .iVal 3]) 256 = s ++ "," ++ "]") :=
  ⟨⟨by decide, List.cons_ne_nil _ _⟩,
    val2String_list_entries [.iVal 1, .iVal 2, .iVal 3] 256 (by decide) (List.cons_ne_nil _ _)⟩

/-- C6: with a positive depth budget, a Null value renders to exactly one of
the four fixed tokens, and the map from Null kinds to tokens is injective, so
the four kinds are in bijection with the four tokens. -/
theorem val2String_null_bijective (d : Nat) (h : 0 < d) :
    (∀ n : NullType,
        val2String (.nVal n) d = "NULL" ∨ val2String (.nVal n) d = "NaN" ∨
          val2String (.nVal n) d = "BAD_DATA" ∨ val2String (.nVal n) d = "BAD_TYPE") ∧
      (∀ n1 n2 : NullType, val2String (.nVal n1) d = val2String (.nVal n2) d → n1 = n2) := by
  obtain ⟨e, rfl⟩ : ∃ e, d = e + 1 := ⟨d - 1, by omega⟩
  constructor
  · intro n
    cases n <;> simp [val2String]
  · intro n1 n2 hc
    cases n1 <;> cases n2 <;> simp only [val2String] at hc <;>
      first
        | rfl
        | exact absurd hc (by decide)

/-- C6 witness: the bijection at depth 1. -/
theorem val2String_null_bijective_witness :
    (0 : Nat) < 1 ∧
      ((∀ n : NullType,
          val2String (.nVal n) 1 = "NULL" ∨ val2String (.nVal n) 1 = "NaN" ∨
            val2String (.nVal n) 1 = "BAD_DATA" ∨ val2String (.nVal n) 1 = "BAD_TYPE") ∧
        (∀ n1 n2 : NullType, val2String (.nVal n1) 1 = val2String (.nVal n2) 1 → n1 = n2)) :=
  ⟨by decide, val2String_null_bijective 1 (by decide)⟩

/-- C7: when a read fails, the loop terminates; it reports no error (process
exit code 0) on end-of-input or interrupt, and reports the error (process exit
code 1) on any other read error. -/
theorem loop_read_error_terminates (exec : String → ExecutionResponse) (rest : List ReadEvent)
    (space : String) (prompts : List (String × Bool)) (queries : List String) (e : ReadErr) :
    (loopGo exec (.readErr e :: rest) space prompts queries).err =
        (if e = .eof ∨ e = .interrupt then none else some e) ∧
      exitCode (loopGo exec (.readErr e :: rest) space prompts queries) =
        (if e = .eof ∨ e = .interrupt then 0 else 1) := by
  simp only [loopGo]
  split <;> simp [exitCode]

/-- C8 (amended): a line that is empty before any trimming makes the loop
re-prompt with the error flag cleared and continue with the remaining input,
dispatching nothing. -/
theorem loop_empty_line_reprompts (exec : String → ExecutionResponse) (rest : List ReadEvent)
    (space : String) (prompts : List (String × Bool)) (queries : List String) :
    loopGo exec (.line "" :: rest) space prompts queries =
      loopGo exec rest space (prompts ++ [(space, false)]) queries := by
  simp [loopGo]

/-- C8 counterexample: a whitespace-only line is empty after trimming, yet the
loop dispatches it as a query instead of re-prompting. -/
theorem loop_trimmed_empty_line_cex :
    trimSpace "   " = "" ∧ (loopRun execStub [.line "   "]).queries = ["   "] := by
  decide

/-- C9: a non-empty, non-client-command line is dispatched; the current space
is overwritten from the response namespace (even when the response status is an
error), the next prompt receives that namespace with the error flag taken from
the response status, and the interactive prompt text contains the namespace
inside bracket-parenthesis. -/
theorem loop_dispatch_updates_space (exec : String → ExecutionResponse) (rest : List ReadEvent)
    (space : String) (prompts : List (String × Bool)) (queries : List String)
    (l : String) (user : String) (isTTY : Bool)
    (h1 : l ≠ "") (h2 : clientCmd l = false) :
    (loopGo exec (.line l :: rest) space prompts queries =
        loopGo exec rest (exec l).space_name
          (prompts ++ [((exec l).space_name, (exec l).error_code != ErrorCode_SUCCEEDED)])
          (queries ++ [l])) ∧
      ∃ a b,
        promptOutput (exec l).space_name user ((exec l).error_code != ErrorCode_SUCCEEDED)
            isTTY =
          a ++ ("[(" ++ (exec l).space_name ++ ")]") ++ b := by
  have hlen : ¬ l.length = 0 := fun hc => h1 ((strLength_zero_iff l).mp hc)
  constructor
  · simp only [loopGo, if_neg hlen, h2, Bool.false_eq_true, if_false]
  · refine ⟨"\n" ++ (if isTTY then "\x1b[1m" else "") ++
      (if isTTY && ((exec l).error_code != ErrorCode_SUCCEEDED) then "\x1b[31m" else "") ++
      "(" ++ user ++ "@" ++ NebulaLabel ++ ") ",
      "> " ++ (if isTTY then "\x1b[0m" else ""), ?_⟩
    have hsplit1 : (") [(" : String) = ") " ++ "[(" := rfl
    have hsplit2 : (")]> " : String) = ")]" ++ "> " := rfl
    simp only [promptOutput, hsplit1, hsplit2]
    apply String.ext
    simp

/-- C9 witness: a query answered with a server error (code 7) reporting the
namespace myspace still overwrites the space, flags the prompt as an error, and
the prompt text contains the namespace. -/
theorem loop_dispatch_updates_space_witness :
    (("YIELD 1" : String) ≠ "" ∧ clientCmd "YIELD 1" = false) ∧
      ((loopGo execMySpace [.line "YIELD 1"] "" [("", false)] [] =
          loopGo execMySpace [] (execMySpace "YIELD 1").space_name
            ([("", false)] ++
              [((execMySpace "YIELD 1").space_name,
                (execMySpace "YIELD 1").error_code != ErrorCode_SUCCEEDED)])
            ([] ++ ["YIELD 1"])) ∧
        ∃ a b,
          promptOutput (execMySpace "YIELD 1").space_name "root"
              ((execMySpace "YIELD 1").error_code != ErrorCode_SUCCEEDED) true =
            a ++ ("[(" ++ (execMySpace "YIELD 1").space_name ++ ")]") ++ b) :=
  ⟨⟨by decide, by decide⟩,
    loop_dispatch_updates_space execMySpace [] "" [("", false)] [] "YIELD 1" "root" true
      (by decide) (by decide)⟩

/-- C10: a response whose error code is not SUCCEEDED makes the response
printer emit only the error annotation and return: no table line and no timing
line is printed. -/
theorem printResp_error_short_circuits (resp : ExecutionResponse) (durationNs : Int)
    (h : resp.error_code ≠ ErrorCode_SUCCEEDED) :
    printRespLines resp durationNs = ["[ERROR (" ++ toString resp.error_code ++ ")]"] := by
  simp [printRespLines, h]

/-- C10 witness: a response with error code 7. -/
theorem printResp_error_short_circuits_witness :
    ((7 : Int) ≠ ErrorCode_SUCCEEDED) ∧
      printRespLines ⟨7, 0, "", []⟩ 0 =
        ["[ERROR (" ++ toString (ExecutionResponse.error_code ⟨7, 0, "", []⟩) ++ ")]"] :=
  ⟨by decide, printResp_error_short_circuits ⟨7, 0, "", []⟩ 0 (by decide)⟩

/-- C1 (amended): for every non-empty input line fed as the sole input of a
non-interactive session, the loop terminates with no error having dispatched
zero queries exactly when the line trims and lowercases to exit or quit. -/
theorem loop_single_line_exit_iff (exec : String → ExecutionResponse) (line : String)
    (h : line ≠ "") :
    ((loopRun exec [.line line]).err = none ∧ (loopRun exec [.line line]).queries = []) ↔
      (toLowerStr (trimSpace line) = "exit" ∨ toLowerStr (trimSpace line) = "quit") := by
  have hlen : ¬ line.length = 0 := fun hc => h ((strLength_zero_iff line).mp hc)
  rw [loopRun]
  rcases hcmd : clientCmd line with hfalse | htrue
  · rw [← clientCmd_iff]
    simp [loopGo, if_neg hlen, hcmd]
  · rw [← clientCmd_iff]
    simp [loopGo, if_neg hlen, hcmd]

/-- C1 witness: the line with spaces and capitals around exit is recognized
and dispatches nothing. -/
theorem loop_single_line_exit_iff_witness :
    ((" EXIT " : String) ≠ "") ∧
      (((loopRun execStub [.line " EXIT "]).err = none ∧
          (loopRun execStub [.line " EXIT "]).queries = []) ↔
        (toLowerStr (trimSpace " EXIT ") = "exit" ∨ toLowerStr (trimSpace " EXIT ") = "quit")) :=
  ⟨by decide, loop_single_line_exit_iff execStub " EXIT " (by decide)⟩

/-- C1 counterexample: the empty line, fed as the sole input, also terminates
with no error and zero queries, although it does not trim and lowercase to
exit or quit, so the unrestricted equivalence of the claim fails. -/
theorem loop_single_line_exit_iff_cex :
    ¬ (((loopRun execStub [.line ""]).err = none ∧ (loopRun execStub [.line ""]).queries = []) ↔
        (toLowerStr (trimSpace "") = "exit" ∨ toLowerStr (trimSpace "") = "quit")) := by
  decide

/-- The example table of the specification, used as a concrete witness. -/
def demoTable : DataSet :=
  ⟨["id", "name"], [[.iVal 1, .sVal "ann"], [.iVal 2, .sVal "alexandra"]]⟩

/-- C5: for a well-formed table every header separator and row separator has
the same constant length sum(columnWidths) + columnCount*4 + columnCount + 1,
where each column width is the max of the header length and of that column's
cell lengths rendered at depth 256 (colWidthSpec). -/
theorem printTable_separator_length (t : DataSet)
    (wf : ∀ r ∈ t.rows, r.length = t.column_names.length) :
    (headerLineOf t).length =
        (∑ j in Finset.range t.column_names.length, colWidthSpec t j) +
          t.column_names.length * 4 + t.column_names.length + 1 ∧
      (rowLineOf t).length =
        (∑ j in Finset.range t.column_names.length, colWidthSpec t j) +
          t.column_names.length * 4 + t.column_names.length + 1 := by
  have hwfr : ∀ r ∈ renderedRows t, r.length = (t.column_names.map String.length).length := by
    intro r hr
    simp only [renderedRows, List.mem_map] at hr
    obtain ⟨row, hrow, rfl⟩ := hr
    simp [wf row hrow]
  have hpoint : ∀ j, (tableSpecOf t).getD j 0 = colWidthSpec t j := by
    intro j
    rw [tableSpecOf, foldl_updateSpec_getD (renderedRows t) _ hwfr j, getD_map_length]
    rfl
  have hlenspec : (tableSpecOf t).length = t.column_names.length := by
    rw [tableSpecOf, foldl_updateSpec_length]
    simp
  have hsum :
      sumU (tableSpecOf t) = ∑ j in Finset.range t.column_names.length, colWidthSpec t j := by
    rw [sumU_eq_sum_getD, hlenspec]
    exact Finset.sum_congr rfl (fun j _ => hpoint j)
  have htot :
      totalLineLength t =
        (∑ j in Finset.range t.column_names.length, colWidthSpec t j) +
          t.column_names.length * 4 + t.column_names.length + 1 := by
    rw [totalLineLength, hsum]
    simp only [align]
    omega
  have hone : ("=" : String).length = 1 := rfl
  have hone2 : ("-" : String).length = 1 := rfl
  constructor
  · rw [headerLineOf, strRepeat_length, hone, Nat.mul_one, htot]
  · rw [rowLineOf, strRepeat_length, hone2, Nat.mul_one, htot]

/-- C5 witness: the two-column example table with rows ann and alexandra. -/
theorem printTable_separator_length_witness :
    (∀ r ∈ demoTable.rows, r.length = demoTable.column_names.length) ∧
      ((headerLineOf demoTable).length =
          (∑ j in Finset.range demoTable.column_names.length, colWidthSpec demoTable j) +
            demoTable.column_names.length * 4 + demoTable.column_names.length + 1 ∧
        (rowLineOf demoTable).length =
          (∑ j in Finset.range demoTable.column_names.length, colWidthSpec demoTable j) +
            demoTable.column_names.length * 4 + demoTable.column_names.length + 1) :=
  ⟨by decide, printTable_separator_length demoTable (by decide)⟩

end NebulaConsole
